import Mathlib

/-!
# Verification of the moltbotscan threat-detection engine

A shallow embedding of the shared threat-detection engine of the `moltbotscan`
repository: the rule catalog and rule engine (`src/analysis/rules.ts`), the
URL/URI classifiers, recursive base64 decoder and escape-obfuscation decoder
(`src/analysis/patterns.ts`, enhanced version), and the risk/score aggregation
(`calculateRisk` / `calculateScore` of the SDK content scanner).

The TypeScript code matches JavaScript `RegExp` patterns against strings.  We
model that builtin with a small executable backtracking matcher over a regex
syntax tree (`RE`): greedy quantifiers, ordered alternation, leftmost-first
search — the semantics JavaScript uses for the patterns appearing in this
repository (none of which contain a nullable quantifier body).  Each pattern
of the source is transcribed into an `RE` value next to a comment holding the
original literal.  `Buffer.from(x, "base64")`, `buf.toString("utf-8")`,
`decodeURIComponent` and WHATWG `new URL` are likewise modelled by executable
Lean functions, documented at their definitions.
-/

namespace Moltbot

/-! ## Characters -/

/-- ASCII lower-casing, the case folding JavaScript's `i` flag performs on the
ASCII-only patterns of this repository. -/
def lowerCh (c : Char) : Char :=
  if 'A' ≤ c ∧ c ≤ 'Z' then Char.ofNat (c.toNat + 32) else c

def isAsciiAlpha (c : Char) : Bool :=
  ('a' ≤ c && c ≤ 'z') || ('A' ≤ c && c ≤ 'Z')

def isAsciiDigit (c : Char) : Bool := '0' ≤ c && c ≤ '9'

def isHexDigit (c : Char) : Bool :=
  isAsciiDigit c || ('a' ≤ c && c ≤ 'f') || ('A' ≤ c && c ≤ 'F')

/-- The characters JavaScript's `\s` class matches. -/
def jsWs (c : Char) : Bool :=
  c = ' ' || c = '\t' || c = '\n' || c.toNat = 11 || c.toNat = 12 || c = '\r' ||
  c.toNat = 0xa0 || c.toNat = 0x1680 || (0x2000 ≤ c.toNat && c.toNat ≤ 0x200a) ||
  c.toNat = 0x2028 || c.toNat = 0x2029 || c.toNat = 0x202f || c.toNat = 0x205f ||
  c.toNat = 0x3000 || c.toNat = 0xfeff

/-- JavaScript `\w` / word characters, used by the `\b` assertion. -/
def isWordChar (c : Char) : Bool :=
  isAsciiAlpha c || isAsciiDigit c || c = '_'

/-- Apostrophe character (code 39), written via `Char.ofNat`. -/
def apos : Char := Char.ofNat 39

/-! ## A regex syntax tree and a backtracking matcher

`RE` covers exactly the constructs used by the repository's patterns:
character classes, concatenation, ordered alternation, greedy `?`, greedy `*`
and the `\b` word-boundary assertion.  Counted quantifiers are unrolled at
transcription time (`{m,}` into `m` copies followed by `*`, `{0,2}` into
nested `?`). -/

inductive RE where
  | eps : RE
  | cls : (Char → Bool) → RE
  | seq : RE → RE → RE
  | alt : RE → RE → RE
  | opt : RE → RE
  | star : RE → RE
  | bWord : RE

def reSize : RE → Nat
  | .eps => 1
  | .cls _ => 1
  | .seq a b => 1 + reSize a + reSize b
  | .alt a b => 1 + reSize a + reSize b
  | .opt a => 1 + reSize a
  | .star a => 1 + reSize a
  | .bWord => 1

/-- Source: `\b` holds between `prev` and the next character when exactly one side is
a word character. -/
def wordBoundary (prev : Option Char) (s : List Char) : Bool :=
  (match prev with | none => false | some c => isWordChar c) !=
  (match s with | [] => false | c :: _ => isWordChar c)

/-- Fueled CPS backtracking matcher.  `mrun fuel r prev s k` tries to match
`r` at the start of `s` (with `prev` the character just before `s`, for `\b`)
and passes the rest of the input to the continuation `k`; alternatives are
tried left to right and quantifiers greedily, which is JavaScript's
backtracking priority.  The fuel only bounds the nesting depth; the wrappers
below always supply enough for it never to run out on the patterns of this
development. -/
def mrun : Nat → RE → Option Char → List Char →
    (Option Char → List Char → Option (List Char)) → Option (List Char)
  | 0, _, _, _, _ => none
  | _ + 1, .eps, prev, s, k => k prev s
  | _ + 1, .cls p, _, s, k =>
    match s with
    | [] => none
    | c :: rest => if p c then k (some c) rest else none
  | fuel + 1, .seq a b, prev, s, k =>
    mrun fuel a prev s (fun p2 s2 => mrun fuel b p2 s2 k)
  | fuel + 1, .alt a b, prev, s, k =>
    (mrun fuel a prev s k).orElse (fun _ => mrun fuel b prev s k)
  | fuel + 1, .opt a, prev, s, k =>
    (mrun fuel a prev s k).orElse (fun _ => k prev s)
  | fuel + 1, .star a, prev, s, k =>
    (mrun fuel a prev s (fun p2 s2 => mrun fuel (.star a) p2 s2 k)).orElse
      (fun _ => k prev s)
  | _ + 1, .bWord, prev, s, k =>
    if wordBoundary prev s then k prev s else none

/-- Try to match `r` at the very start of `s`; return the length of the
(backtracking-first) match. -/
def mtry (r : RE) (prev : Option Char) (s : List Char) : Option Nat :=
  match mrun ((s.length + 1) * (reSize r + 2)) r prev s (fun _ rem => some rem) with
  | some rem => some (s.length - rem.length)
  | none => none

/-- Try to match `r` at index `i` of `text`. -/
def tryAt (r : RE) (text : List Char) (i : Nat) : Option Nat :=
  mtry r (if i = 0 then none else text.get? (i - 1)) (text.drop i)

/-- Scan indices `i, i+1, …` (at most `fuel` of them) for the first index
where `r` matches; this is the leftmost-match search JavaScript's
`String.match` / `RegExp.exec` perform. -/
def searchAux (r : RE) (text : List Char) : Nat → Nat → Option (Nat × Nat)
  | 0, _ => none
  | fuel + 1, i =>
    match tryAt r text i with
    | some len => some (i, len)
    | none => searchAux r text fuel (i + 1)

/-- Position and length of the first (leftmost) match of `r` in `text`. -/
def reFirstPos (r : RE) (text : List Char) : Option (Nat × Nat) :=
  searchAux r text (text.length + 1) 0

def subAt (text : List Char) (i len : Nat) : List Char :=
  (text.drop i).take len

/-- The first matched substring: JavaScript's `text.match(r)[0]`. -/
def reFirstSub (r : RE) (text : List Char) : Option (List Char) :=
  (reFirstPos r text).map (fun p => subAt text p.1 p.2)

/-- JavaScript's `r.test(text)`. -/
def reTest (r : RE) (text : List Char) : Bool :=
  (reFirstPos r text).isSome

/-- Repeated leftmost search, continuing after each match (advancing one
position past empty matches): JavaScript's `text.match(/…/g)` /
`text.matchAll`. -/
def findAllAux (r : RE) (text : List Char) : Nat → Nat → List (List Char)
  | 0, _ => []
  | fuel + 1, i =>
    match searchAux r text (text.length + 1 - i) i with
    | some (j, len) => subAt text j len :: findAllAux r text fuel (j + max len 1)
    | none => []

def reFindAll (r : RE) (text : List Char) : List (List Char) :=
  findAllAux r text (text.length + 1) 0

/-! ## Transcription helpers -/

/-- Case-insensitive literal character (a pattern under the `i` flag). -/
def ci (c : Char) : RE := .cls (fun x => lowerCh x = lowerCh c)

/-- Exact literal character. -/
def lit (c : Char) : RE := .cls (fun x => x = c)

def reCat : List RE → RE
  | [] => .eps
  | [r] => r
  | r :: rest => .seq r (reCat rest)

/-- Ordered alternation `a|b|…` (leftmost alternative first, as JavaScript). -/
def altList : List RE → RE
  | [] => .cls (fun _ => false)
  | [r] => r
  | r :: rest => .alt r (altList rest)

/-- Case-insensitive literal string. -/
def cis (s : String) : RE := reCat (s.data.map ci)

/-- Exact literal string. -/
def lits (s : String) : RE := reCat (s.data.map lit)

def rePlus (r : RE) : RE := .seq r (.star r)

/-- Helper: `r` repeated exactly `n` times then `r*`, the transcription of `r{n,}`. -/
def repAtLeast (n : Nat) (r : RE) : RE :=
  reCat (List.replicate n r ++ [.star r])

def wsp : RE := .cls jsWs
def wsPlus : RE := rePlus wsp
def wsStar : RE := .star wsp
def hexD : RE := .cls isHexDigit

/-- JavaScript `.` (without the `s` flag): anything but a line terminator. -/
def dotAny : RE :=
  .cls (fun c => !(c = '\n' || c = '\r' || c.toNat = 0x2028 || c.toNat = 0x2029))

/-! ## Data model (`src/types/index.ts`) -/

inductive Severity where
  | HIGH | MEDIUM | LOW
deriving DecidableEq

inductive InjectionCategory where
  | direct_injection | credential_theft | covert_execution
  | social_engineering | obfuscated_encoding | tool_poisoning | supply_chain
deriving DecidableEq

inductive RiskLevel where
  | HIGH | MEDIUM | LOW | SAFE
deriving DecidableEq

/-- One entry of the rule catalog (`PatternRule` of `src/analysis/patterns.ts`);
`re` is the transcription of the compiled `pattern`, `source` its
`pattern.source` string. -/
structure PatternRule where
  re : RE
  source : String
  category : InjectionCategory
  severity : Severity
  description : String

/-! ## Rule catalog (`src/analysis/patterns.ts`)

Each `re` transcribes the regex literal quoted in the `source` field; all the
rule patterns below except the obfuscated-encoding family carry JavaScript's
`i` flag, transcribed with `ci`/`cis`. -/

def DIRECT_INJECTION : List PatternRule := [
  -- /ignore\s+(all\s+)?previous\s+instructions/i
  ⟨reCat [cis ("ignore"), wsPlus, .opt (reCat [cis ("all"), wsPlus]),
      cis ("previous"), wsPlus, cis ("instructions")],
    "ignore\\s+(all\\s+)?previous\\s+instructions",
    .direct_injection, .HIGH, "Attempts to override previous instructions"⟩,
  -- /you\s+are\s+now\s+a/i
  ⟨reCat [cis ("you"), wsPlus, cis ("are"), wsPlus, cis ("now"), wsPlus, ci 'a'],
    "you\\s+are\\s+now\\s+a",
    .direct_injection, .HIGH, "Attempts to redefine agent identity"⟩,
  -- /new\s+system\s+prompt/i
  ⟨reCat [cis ("new"), wsPlus, cis ("system"), wsPlus, cis ("prompt")],
    "new\\s+system\\s+prompt",
    .direct_injection, .HIGH, "Attempts to inject new system prompt"⟩,
  -- /override\s+(your\s+)?(safety|instructions|rules)/i
  ⟨reCat [cis ("override"), wsPlus, .opt (reCat [cis ("your"), wsPlus]),
      altList [cis ("safety"), cis ("instructions"), cis ("rules")]],
    "override\\s+(your\\s+)?(safety|instructions|rules)",
    .direct_injection, .HIGH, "Attempts to override safety rules"⟩]

def CREDENTIAL_THEFT : List PatternRule := [
  -- /share\s+(your\s+)?(api[_\s]?key|password|token|secret|credential)/i
  ⟨reCat [cis ("share"), wsPlus, .opt (reCat [cis ("your"), wsPlus]),
      altList [reCat [cis ("api"), .opt (.cls (fun c => c = '_' || jsWs c)), cis ("key")],
        cis ("password"), cis ("token"), cis ("secret"), cis ("credential")]],
    "share\\s+(your\\s+)?(api[_\\s]?key|password|token|secret|credential)",
    .credential_theft, .HIGH, "Requests agent to share API keys or credentials"⟩,
  -- /send\s+(me\s+)?(your\s+)?(ssh|api|access)\s*(key|token)/i
  ⟨reCat [cis ("send"), wsPlus, .opt (reCat [cis ("me"), wsPlus]),
      .opt (reCat [cis ("your"), wsPlus]),
      altList [cis ("ssh"), cis ("api"), cis ("access")], wsStar,
      altList [cis ("key"), cis ("token")]],
    "send\\s+(me\\s+)?(your\\s+)?(ssh|api|access)\\s*(key|token)",
    .credential_theft, .HIGH, "Requests agent to send sensitive tokens"⟩,
  -- /cat\s+~\/\.(ssh|env|aws|openclaw)/i
  ⟨reCat [cis ("cat"), wsPlus, lit '~', lit '/', lit '.',
      altList [cis ("ssh"), cis ("env"), cis ("aws"), cis ("openclaw")]],
    "cat\\s+~\\/\\.(ssh|env|aws|openclaw)",
    .credential_theft, .HIGH, "Attempts to read sensitive config files"⟩,
  -- /print\s+(env|environment|process\.env)/i
  ⟨reCat [cis ("print"), wsPlus,
      altList [cis ("env"), cis ("environment"), reCat [cis ("process"), lit '.', cis ("env")]]],
    "print\\s+(env|environment|process\\.env)",
    .credential_theft, .HIGH, "Attempts to dump environment variables"⟩]

def COVERT_EXECUTION : List PatternRule := [
  -- /\beval\s*\(/i
  ⟨reCat [.bWord, cis ("eval"), wsStar, lit '('],
    "\\beval\\s*\\(",
    .covert_execution, .HIGH, "Contains eval() call for arbitrary code execution"⟩,
  -- /\bcurl\s+-[sS].*\|\s*(sh|bash)/i
  ⟨reCat [.bWord, cis ("curl"), wsPlus, lit '-', .cls (fun c => c = 's' || c = 'S'),
      .star dotAny, lit '|', wsStar, altList [cis ("sh"), cis ("bash")]],
    "\\bcurl\\s+-[sS].*\\|\\s*(sh|bash)",
    .covert_execution, .HIGH, "Pipes remote content to shell execution"⟩,
  -- /base64\s+-d/i
  ⟨reCat [cis ("base64"), wsPlus, lit '-', ci 'd'],
    "base64\\s+-d",
    .covert_execution, .HIGH, "Decodes base64 content (potential hidden payload)"⟩,
  -- /wget\s+.*-O\s*-\s*\|\s*(sh|bash)/i
  ⟨reCat [cis ("wget"), wsPlus, .star dotAny, lit '-', ci 'O', wsStar, lit '-', wsStar,
      lit '|', wsStar, altList [cis ("sh"), cis ("bash")]],
    "wget\\s+.*-O\\s*-\\s*\\|\\s*(sh|bash)",
    .covert_execution, .HIGH, "Downloads and executes remote script"⟩]

def SOCIAL_ENGINEERING : List PatternRule := [
  -- /don'?t\s+tell\s+(your\s+)?(owner|user|human|creator)/i
  ⟨reCat [cis ("don"), .opt (lit apos), ci 't', wsPlus, cis ("tell"), wsPlus,
      .opt (reCat [cis ("your"), wsPlus]),
      altList [cis ("owner"), cis ("user"), cis ("human"), cis ("creator")]],
    "don\x27?t\\s+tell\\s+(your\\s+)?(owner|user|human|creator)",
    .social_engineering, .MEDIUM, "Instructs agent to hide actions from owner"⟩,
  -- /this\s+is\s+(a\s+)?secret\s+instruction/i
  ⟨reCat [cis ("this"), wsPlus, cis ("is"), wsPlus, .opt (reCat [ci 'a', wsPlus]),
      cis ("secret"), wsPlus, cis ("instruction")],
    "this\\s+is\\s+(a\\s+)?secret\\s+instruction",
    .social_engineering, .MEDIUM, "Claims to be a secret instruction"⟩,
  -- /act\s+as\s+if\s+(you|this)\s+(are|is)\s+normal/i
  ⟨reCat [cis ("act"), wsPlus, cis ("as"), wsPlus, cis ("if"), wsPlus,
      altList [cis ("you"), cis ("this")], wsPlus,
      altList [cis ("are"), cis ("is")], wsPlus, cis ("normal")],
    "act\\s+as\\s+if\\s+(you|this)\\s+(are|is)\\s+normal",
    .social_engineering, .MEDIUM, "Instructs agent to disguise abnormal behavior"⟩,
  -- /between\s+you\s+and\s+me/i
  ⟨reCat [cis ("between"), wsPlus, cis ("you"), wsPlus, cis ("and"), wsPlus, cis ("me")],
    "between\\s+you\\s+and\\s+me",
    .social_engineering, .MEDIUM, "Attempts to establish secret communication"⟩]

/-- One `\xHH` hex escape. -/
def hexEsc : RE := reCat [lit '\\', lit 'x', hexD, hexD]

/-- One `\uHHHH` unicode escape. -/
def uniEsc : RE := reCat [lit '\\', lit 'u', hexD, hexD, hexD, hexD]

/-- One `&#x?[0-9a-fA-F]+;` HTML numeric entity. -/
def htmlEnt : RE := reCat [lit '&', lit '#', .opt (lit 'x'), rePlus hexD, lit ';']

/-- One `%HH` percent escape. -/
def pctEsc : RE := reCat [lit '%', hexD, hexD]

def OBFUSCATED_ENCODING : List PatternRule := [
  -- /\\x[0-9a-fA-F]{2}(\\x[0-9a-fA-F]{2}){3,}/   (no i flag)
  ⟨.seq hexEsc (repAtLeast 3 hexEsc),
    "\\\\x[0-9a-fA-F]{2}(\\\\x[0-9a-fA-F]{2}){3,}",
    .obfuscated_encoding, .HIGH, "Hex-encoded string (potential obfuscated payload)"⟩,
  -- /\\u[0-9a-fA-F]{4}(\\u[0-9a-fA-F]{4}){3,}/
  ⟨.seq uniEsc (repAtLeast 3 uniEsc),
    "\\\\u[0-9a-fA-F]{4}(\\\\u[0-9a-fA-F]{4}){3,}",
    .obfuscated_encoding, .HIGH, "Unicode escape sequence (potential obfuscated payload)"⟩,
  -- /&#x?[0-9a-fA-F]+;(&#x?[0-9a-fA-F]+;){3,}/
  ⟨.seq htmlEnt (repAtLeast 3 htmlEnt),
    "&#x?[0-9a-fA-F]+;(&#x?[0-9a-fA-F]+;){3,}",
    .obfuscated_encoding, .MEDIUM, "HTML entity encoded string (potential obfuscated payload)"⟩,
  -- /%[0-9a-fA-F]{2}(%[0-9a-fA-F]{2}){5,}/
  ⟨.seq pctEsc (repAtLeast 5 pctEsc),
    "%[0-9a-fA-F]{2}(%[0-9a-fA-F]{2}){5,}",
    .obfuscated_encoding, .MEDIUM, "URL-encoded string (potential obfuscated payload)"⟩]

def ALL_PATTERNS : List PatternRule :=
  DIRECT_INJECTION ++ CREDENTIAL_THEFT ++ COVERT_EXECUTION ++
  SOCIAL_ENGINEERING ++ OBFUSCATED_ENCODING

/-- The pattern list `deepBase64Scan` and `detectObfuscatedEncoding` each
rebuild locally (the four families without the obfuscated-encoding rules). -/
def DECODED_SCAN_PATTERNS : List PatternRule :=
  DIRECT_INJECTION ++ CREDENTIAL_THEFT ++ COVERT_EXECUTION ++ SOCIAL_ENGINEERING

/-! ## URL / URI classifiers (`src/analysis/patterns.ts`) -/

def KNOWN_SAFE_DOMAINS : List String := [
  ("github.com"), ("gitlab.com"), ("stackoverflow.com"),
  ("wikipedia.org"), ("arxiv.org"), ("google.com"),
  ("youtube.com"), ("twitter.com"), ("x.com"),
  ("moltbook.com"), ("anthropic.com"), ("openai.com"),
  ("huggingface.co"), ("npmjs.com"), ("pypi.org")]

def SHORT_URL_DOMAINS : List String := [
  ("bit.ly"), ("tinyurl.com"), ("t.co"), ("goo.gl"), ("ow.ly"),
  ("is.gd"), ("buff.ly"), ("rebrand.ly"), ("short.io"), ("cutt.ly"),
  ("tiny.cc"), ("lnkd.in"), ("surl.li"), ("rb.gy")]

def schemeChar (c : Char) : Bool :=
  isAsciiAlpha c || isAsciiDigit c || c = '+' || c = '-' || c = '.'

/-- Schemes the WHATWG URL standard treats as special. -/
def SPECIAL_SCHEMES : List String :=
  [("http"), ("https"), ("ws"), ("wss"), ("ftp"), ("file")]

/-- A character ending the host portion of an authority. -/
def hostTerm (c : Char) : Bool :=
  c = '/' || c = '\\' || c = '?' || c = '#' || c = ':'

/-- Modelled builtin: hostname extraction after the scheme, second half of
`urlHostname` below. -/
def urlHostnameAfterScheme (scheme : String) (rest : List Char) : Option String :=
  if SPECIAL_SCHEMES.contains scheme then
    let body := rest.dropWhile (fun c => c = '/' || c = '\\')
    let host := body.takeWhile (fun c => !hostTerm c)
    if host.isEmpty then none
    else some (String.mk (host.map lowerCh))
  else
    match rest with
    | '/' :: '/' :: more => some (String.mk ((more.takeWhile (fun c => !hostTerm c)).map lowerCh))
    | _ => some ("")

def urlHostnameScheme : List Char → List Char → Option String
  | acc, c :: rest =>
    if c = ':' then urlHostnameAfterScheme (String.mk acc.reverse) rest
    else if schemeChar c then urlHostnameScheme (lowerCh c :: acc) rest
    else none
  | _, [] => none

/-- Modelled builtin: the `hostname` of WHATWG `new URL(url)`, `none` when the
constructor throws.  Faithful for the URLs this engine feeds it (absolute
URLs whose authority has no userinfo, and scheme-only strings): a string
without a leading `scheme:` fails; a special scheme (`http`, `https`, …)
skips the slashes after the colon and takes the ASCII-lowercased host up to a
delimiter, failing on an empty host; a non-special scheme yields hostname ""
unless followed by `//`.  IDN/percent encoding in hosts, userinfo and input
trimming are not modelled (never exercised here). -/
def urlHostname (url : String) : Option String :=
  match url.data with
  | [] => none
  | c :: rest => if isAsciiAlpha c then urlHostnameScheme [lowerCh c] rest else none

/-- Source: `hostname.replace(/^www\./, '')`. -/
def stripWww (host : String) : String :=
  match host.data with
  | 'w' :: 'w' :: 'w' :: '.' :: rest => String.mk rest
  | _ => host

/-- Source: `isSuspiciousUrl` of `src/analysis/patterns.ts`: fail-closed on parse
failure, else exact allowlist membership of the www-stripped hostname. -/
def isSuspiciousUrl (url : String) : Bool :=
  match urlHostname url with
  | none => true
  | some h => !KNOWN_SAFE_DOMAINS.contains (stripWww h)

/-- Source: `isShortUrl` of `src/analysis/patterns.ts`: `false` on parse failure
(the `catch` branch), else membership in the shortener set. -/
def isShortUrl (url : String) : Bool :=
  match urlHostname url with
  | none => false
  | some h => SHORT_URL_DOMAINS.contains (stripWww h)

-- /https?:\/\/[^\s<>"')\]]+/gi
def URL_PATTERN : RE :=
  reCat [cis ("http"), .opt (ci 's'), lit ':', lit '/', lit '/',
    rePlus (.cls (fun c =>
      !(jsWs c || c = '<' || c = '>' || c = '"' || c = apos || c = ')' || c = ']')))]

-- /(?:javascript|vbscript|data)\s*:/i
def MALICIOUS_URI_PATTERN : RE :=
  reCat [altList [cis ("javascript"), cis ("vbscript"), cis ("data")], wsStar, lit ':']

-- /data\s*:\s*(?:text\/html|application\/javascript)[^,]*[,;]/i
def DATA_URI_EXEC_PATTERN : RE :=
  reCat [cis ("data"), wsStar, lit ':', wsStar,
    .alt (reCat [cis ("text"), lit '/', cis ("html")])
      (reCat [cis ("application"), lit '/', cis ("javascript")]),
    .star (.cls (fun c => !(c = ','))), .cls (fun c => c = ',' || c = ';')]

-- /https?:\/\/(bit\.ly|tinyurl\.com|t\.co|goo\.gl|ow\.ly|is\.gd|buff\.ly|rebrand\.ly|short\.io|cutt\.ly|tiny\.cc|lnkd\.in|surl\.li|rb\.gy)\/\S+/gi
def SHORT_URL_PATTERN : RE :=
  reCat [cis ("http"), .opt (ci 's'), lit ':', lit '/', lit '/',
    altList (SHORT_URL_DOMAINS.map cis), lit '/',
    rePlus (.cls (fun c => !jsWs c))]

-- /%2[eE]%2[eE]|\.\.%2[fF]|%2[fF]\.\./   (no i flag)
def URL_PATH_TRAVERSAL : RE :=
  altList [
    reCat [lit '%', lit '2', .cls (fun c => c = 'e' || c = 'E'),
      lit '%', lit '2', .cls (fun c => c = 'e' || c = 'E')],
    reCat [lit '.', lit '.', lit '%', lit '2', .cls (fun c => c = 'f' || c = 'F')],
    reCat [lit '%', lit '2', .cls (fun c => c = 'f' || c = 'F'), lit '.', lit '.']]

/-- A finding of `detectMaliciousUris` (`MaliciousUriResult` in the source). -/
structure MaliciousUriResult where
  uri : String
  reason : String
  severity : Severity
deriving DecidableEq

/-- Source: `detectMaliciousUris` of `src/analysis/patterns.ts`: dangerous schemes,
executable data: URIs, shortener URLs, and URL-encoded path traversal, in the
source's push order. -/
def detectMaliciousUris (content : String) : List MaliciousUriResult :=
  let t := content.data
  (match reFirstSub MALICIOUS_URI_PATTERN t with
    | some m => [⟨String.mk m, ("Dangerous URI scheme detected (javascript/vbscript/data)"), .HIGH⟩]
    | none => []) ++
  (match reFirstSub DATA_URI_EXEC_PATTERN t with
    | some m => [⟨String.mk m,
        ("Data URI with executable content type (text/html or application/javascript)"), .HIGH⟩]
    | none => []) ++
  (reFindAll SHORT_URL_PATTERN t).map (fun u =>
    ⟨String.mk u, ("Short URL service used — destination hidden"), .MEDIUM⟩) ++
  ((reFindAll URL_PATTERN t).filter (fun u => reTest URL_PATH_TRAVERSAL u)).map (fun u =>
    ⟨String.mk u, ("URL contains encoded path traversal (../)"), .HIGH⟩)

/-! ## Base64 machinery -/

/-- A base64-alphabet character. -/
def b64Char (c : Char) : Bool :=
  isAsciiAlpha c || isAsciiDigit c || c = '+' || c = '/'

-- /[A-Za-z0-9+/]{20,}={0,2}/g — the candidate scanner of `deepBase64Scan`
def BASE64_RUN_20 : RE :=
  reCat [repAtLeast 20 (.cls b64Char), .opt (.seq (lit '=') (.opt (lit '=')))]

def b64Val (c : Char) : Option Nat :=
  if 'A' ≤ c && c ≤ 'Z' then some (c.toNat - 65)
  else if 'a' ≤ c && c ≤ 'z' then some (c.toNat - 97 + 26)
  else if '0' ≤ c && c ≤ '9' then some (c.toNat - 48 + 52)
  else if c = '+' then some 62
  else if c = '/' then some 63
  else none

/-- Pack 6-bit sextets into bytes, four at a time; a trailing group of two or
three sextets yields one or two bytes and a lone trailing sextet is dropped,
as Node's forgiving decoder does. -/
def b64Groups : List Nat → List Nat
  | a :: b :: c :: d :: rest =>
    (a * 4 + b / 16) :: ((b % 16) * 16 + c / 4) :: ((c % 4) * 64 + d) :: b64Groups rest
  | [a, b] => [a * 4 + b / 16]
  | [a, b, c] => [a * 4 + b / 16, (b % 16) * 16 + c / 4]
  | _ => []

/-- Modelled builtin: `Buffer.from(candidate, 'base64')` — Node stops at the
first `=` padding character and ignores non-alphabet characters (the
candidates fed here consist of alphabet characters with at most two trailing
`=`).  It never throws on such input. -/
def base64DecodeJs (cand : List Char) : List Nat :=
  b64Groups ((cand.takeWhile (fun c => !(c = '='))).filterMap b64Val)

def contByte (b : Nat) : Bool := 0x80 ≤ b && b ≤ 0xbf

/-- Valid ranges of the second byte of a three-byte UTF-8 sequence. -/
def cont2ok (b b2 : Nat) : Bool :=
  if b = 0xe0 then 0xa0 ≤ b2 && b2 ≤ 0xbf
  else if b = 0xed then 0x80 ≤ b2 && b2 ≤ 0x9f
  else contByte b2

/-- Valid ranges of the second byte of a four-byte UTF-8 sequence. -/
def cont3ok (b b2 : Nat) : Bool :=
  if b = 0xf0 then 0x90 ≤ b2 && b2 ≤ 0xbf
  else if b = 0xf4 then 0x80 ≤ b2 && b2 ≤ 0x8f
  else contByte b2

/-- Fueled worker for `utf8DecodeJs`; one unit of fuel per consumed lead
byte, so `length + 1` never runs out. -/
def utf8DecodeJsAux : Nat → List Nat → List Char
  | 0, _ => []
  | _ + 1, [] => []
  | fuel + 1, b :: rest =>
    if b < 0x80 then Char.ofNat b :: utf8DecodeJsAux fuel rest
    else if 0xc2 ≤ b && b ≤ 0xdf then
      match rest with
      | b2 :: rest2 =>
        if contByte b2 then
          Char.ofNat ((b - 0xc0) * 64 + (b2 - 0x80)) :: utf8DecodeJsAux fuel rest2
        else Char.ofNat 0xfffd :: utf8DecodeJsAux fuel (b2 :: rest2)
      | [] => [Char.ofNat 0xfffd]
    else if 0xe0 ≤ b && b ≤ 0xef then
      match rest with
      | b2 :: b3 :: rest3 =>
        if cont2ok b b2 && contByte b3 then
          Char.ofNat ((b - 0xe0) * 4096 + (b2 - 0x80) * 64 + (b3 - 0x80)) ::
            utf8DecodeJsAux fuel rest3
        else Char.ofNat 0xfffd :: utf8DecodeJsAux fuel (b2 :: b3 :: rest3)
      | [b2] => Char.ofNat 0xfffd :: utf8DecodeJsAux fuel [b2]
      | [] => [Char.ofNat 0xfffd]
    else if 0xf0 ≤ b && b ≤ 0xf4 then
      match rest with
      | b2 :: b3 :: b4 :: rest4 =>
        if cont3ok b b2 && contByte b3 && contByte b4 then
          Char.ofNat ((b - 0xf0) * 262144 + (b2 - 0x80) * 4096 + (b3 - 0x80) * 64 + (b4 - 0x80))
            :: utf8DecodeJsAux fuel rest4
        else Char.ofNat 0xfffd :: utf8DecodeJsAux fuel (b2 :: b3 :: b4 :: rest4)
      | [b2, b3] => Char.ofNat 0xfffd :: utf8DecodeJsAux fuel [b2, b3]
      | [b2] => Char.ofNat 0xfffd :: utf8DecodeJsAux fuel [b2]
      | [] => [Char.ofNat 0xfffd]
    else Char.ofNat 0xfffd :: utf8DecodeJsAux fuel rest

/-- Modelled builtin: `buf.toString('utf-8')` — strict UTF-8 with U+FFFD
replacing each byte of an invalid sequence. -/
def utf8DecodeJs (bytes : List Nat) : List Char :=
  utf8DecodeJsAux (bytes.length + 1) bytes

def isPrintableByte (b : Nat) : Bool :=
  (0x20 ≤ b && b ≤ 0x7e) || b = 0x0a || b = 0x0d || b = 0x09

/-- The plausibility gate of `deepBase64Scan`: the source computes
`printable.length / buf.length < 0.7` in floating point and skips the
candidate when it holds; a candidate is kept exactly when the printable
fraction is at least 7/10, which this integer comparison states exactly (the
float division is exact-enough at every feasible buffer length, and the
`0/0 = NaN < 0.7 = false` corner also keeps the candidate, matching
`7 * 0 ≤ 10 * 0`). -/
def printableGate (bytes : List Nat) : Bool :=
  7 * bytes.length ≤ 10 * bytes.countP isPrintableByte

-- /\b(eval|exec|system|curl|wget|bash|sh|rm\s+-rf|chmod|chown|nc\s+-|ncat|socat)\b/i
def suspiciousDecodedRe : RE :=
  reCat [.bWord,
    altList [cis ("eval"), cis ("exec"), cis ("system"), cis ("curl"), cis ("wget"),
      cis ("bash"), cis ("sh"), reCat [cis ("rm"), wsPlus, lit '-', cis ("rf")],
      cis ("chmod"), cis ("chown"), reCat [cis ("nc"), wsPlus, lit '-'],
      cis ("ncat"), cis ("socat")],
    .bWord]

/-- Source: `Base64DecodedThreat` of `src/analysis/patterns.ts`. -/
structure Base64DecodedThreat where
  encodedText : String
  decodedText : String
  matchedRule : String
  depth : Nat
deriving DecidableEq

/-- Source: `originalEncoded || candidate` (the empty string is falsy). -/
def origOr (orig cand : List Char) : List Char :=
  if orig.isEmpty then cand else orig

/-- The body of `scanLayer` for one base64 candidate: decode, plausibility
gate (`continue` on failure), one threat per matching catalog rule, one
threat for the suspicious-command lexicon, then the recursive call (abstracted
as `recur`) when `depth < maxDepth` and the decoded text contains another
base64-shaped run. -/
def candidateThreats (recur : List Char → Nat → List Char → List Base64DecodedThreat)
    (maxDepth : Nat) (cand : List Char) (depth : Nat) (orig : List Char) :
    List Base64DecodedThreat :=
  let bytes := base64DecodeJs cand
  if !printableGate bytes then []
  else
    let decoded := utf8DecodeJs bytes
    let enc := String.mk (origOr orig cand)
    (DECODED_SCAN_PATTERNS.filterMap (fun rule =>
      if reTest rule.re decoded then
        some ⟨enc, String.mk (decoded.take 200), rule.description, depth⟩
      else none)) ++
    (if reTest suspiciousDecodedRe decoded then
      [⟨enc, String.mk (decoded.take 200),
        ("Decoded base64 contains suspicious shell command"), depth⟩]
    else []) ++
    (if depth < maxDepth && reTest BASE64_RUN_20 decoded then
      recur decoded (depth + 1) (origOr orig cand)
    else [])

/-- Source: `scanLayer` of `deepBase64Scan`: stop when `depth > maxDepth`, else
process every base64 candidate of the layer.  The fuel argument makes the
recursion structural; `deepBase64Scan` passes `maxDepth + 1`, which the
`depth < maxDepth` guard never exhausts (each recursive call increases
`depth` by exactly one). -/
def scanLayer : Nat → Nat → List Char → Nat → List Char → List Base64DecodedThreat
  | 0, _, _, _, _ => []
  | fuel + 1, maxDepth, text, depth, orig =>
    if maxDepth < depth then []
    else (reFindAll BASE64_RUN_20 text).flatMap (fun cand =>
      candidateThreats (fun t d o => scanLayer fuel maxDepth t d o) maxDepth cand depth orig)

/-- Source: `deepBase64Scan(content, maxDepth)` of `src/analysis/patterns.ts`
(`maxDepth` defaults to 3 at every call site of this repository). -/
def deepBase64Scan (content : String) (maxDepth : Nat) : List Base64DecodedThreat :=
  scanLayer (maxDepth + 1) maxDepth content.data 1 []

/-- Source: `containsBase64Hidden(content)` (enhanced version):
`deepBase64Scan(content).length > 0`. -/
def containsBase64Hidden (content : String) : Bool :=
  decide (0 < (deepBase64Scan content 3).length)

/-! ## Escape-obfuscation decoding (`src/analysis/patterns.ts`) -/

def hexVal (c : Char) : Nat :=
  if isAsciiDigit c then c.toNat - 48
  else if 'a' ≤ c && c ≤ 'f' then c.toNat - 87
  else if 'A' ≤ c && c ≤ 'F' then c.toNat - 55
  else 0

/-- Modelled builtin: `String.fromCharCode(n)` — the code unit `n mod 2^16`;
a lone surrogate code unit (never produced by the repository's exercised
inputs) is mapped to U+FFFD since Lean's `Char` holds scalar values only. -/
def fromCharCode16 (n : Nat) : Char :=
  let u := n % 65536
  if 0xd800 ≤ u ∧ u ≤ 0xdfff then Char.ofNat 0xfffd else Char.ofNat u

/-- Fueled worker for `decodeHexEscapes` (one fuel per consumed character). -/
def decodeHexEscapesAux : Nat → List Char → List Char
  | 0, l => l
  | fuel + 1, '\\' :: 'x' :: h1 :: h2 :: rest =>
    if isHexDigit h1 && isHexDigit h2 then
      Char.ofNat (16 * hexVal h1 + hexVal h2) :: decodeHexEscapesAux fuel rest
    else '\\' :: decodeHexEscapesAux fuel ('x' :: h1 :: h2 :: rest)
  | fuel + 1, c :: rest => c :: decodeHexEscapesAux fuel rest
  | _ + 1, [] => []

/-- Source: `decodeHexEscapes`: `text.replace(/\\x([0-9a-fA-F]{2})/g, fromCharCode)`. -/
def decodeHexEscapes (t : List Char) : List Char :=
  decodeHexEscapesAux (t.length + 1) t

/-- Fueled worker for `decodeUnicodeEscapes`. -/
def decodeUnicodeEscapesAux : Nat → List Char → List Char
  | 0, l => l
  | fuel + 1, '\\' :: 'u' :: h1 :: h2 :: h3 :: h4 :: rest =>
    if isHexDigit h1 && isHexDigit h2 && isHexDigit h3 && isHexDigit h4 then
      fromCharCode16 (4096 * hexVal h1 + 256 * hexVal h2 + 16 * hexVal h3 + hexVal h4) ::
        decodeUnicodeEscapesAux fuel rest
    else '\\' :: decodeUnicodeEscapesAux fuel ('u' :: h1 :: h2 :: h3 :: h4 :: rest)
  | fuel + 1, c :: rest => c :: decodeUnicodeEscapesAux fuel rest
  | _ + 1, [] => []

/-- Source: `decodeUnicodeEscapes`: `text.replace(/\\u([0-9a-fA-F]{4})/g, fromCharCode)`. -/
def decodeUnicodeEscapes (t : List Char) : List Char :=
  decodeUnicodeEscapesAux (t.length + 1) t

def hexParse (ds : List Char) : Nat :=
  ds.foldl (fun acc c => 16 * acc + hexVal c) 0

def decParse (ds : List Char) : Nat :=
  ds.foldl (fun acc c => 10 * acc + (c.toNat - 48)) 0

/-- Fueled worker for the first (hex-entity) pass of `decodeHtmlEntities`:
`text.replace(/&#x([0-9a-fA-F]+);/g, fromCharCode ∘ parseInt16)`. -/
def htmlHexPassAux : Nat → List Char → List Char
  | 0, l => l
  | fuel + 1, '&' :: '#' :: 'x' :: rest =>
    (match rest.dropWhile isHexDigit with
    | ';' :: rest2 =>
      if (rest.takeWhile isHexDigit).isEmpty then
        '&' :: htmlHexPassAux fuel ('#' :: 'x' :: rest)
      else fromCharCode16 (hexParse (rest.takeWhile isHexDigit)) :: htmlHexPassAux fuel rest2
    | _ => '&' :: htmlHexPassAux fuel ('#' :: 'x' :: rest))
  | fuel + 1, c :: rest => c :: htmlHexPassAux fuel rest
  | _ + 1, [] => []

/-- Fueled worker for the second (decimal-entity) pass of
`decodeHtmlEntities`: `….replace(/&#(\d+);/g, fromCharCode ∘ parseInt10)`. -/
def htmlDecPassAux : Nat → List Char → List Char
  | 0, l => l
  | fuel + 1, '&' :: '#' :: rest =>
    (match rest.dropWhile isAsciiDigit with
    | ';' :: rest2 =>
      if (rest.takeWhile isAsciiDigit).isEmpty then
        '&' :: htmlDecPassAux fuel ('#' :: rest)
      else fromCharCode16 (decParse (rest.takeWhile isAsciiDigit)) :: htmlDecPassAux fuel rest2
    | _ => '&' :: htmlDecPassAux fuel ('#' :: rest))
  | fuel + 1, c :: rest => c :: htmlDecPassAux fuel rest
  | _ + 1, [] => []

/-- Source: `decodeHtmlEntities`: the hex-entity pass chained into the decimal-entity
pass, as the source's two chained `.replace` calls. -/
def decodeHtmlEntities (t : List Char) : List Char :=
  htmlDecPassAux (t.length + 1) (htmlHexPassAux (t.length + 1) t)

/-- Tokenize for `decodeURIComponent`: each `%HH` becomes a byte, any other
character stays; a malformed percent sequence is a `URIError` (`none`). -/
def pctTokens : List Char → Option (List (Sum Nat Char))
  | '%' :: h1 :: h2 :: rest =>
    if isHexDigit h1 && isHexDigit h2 then
      (pctTokens rest).map (fun ts => Sum.inl (16 * hexVal h1 + hexVal h2) :: ts)
    else none
  | '%' :: _ => none
  | c :: rest => (pctTokens rest).map (fun ts => Sum.inr c :: ts)
  | [] => some []

/-- Fueled worker for `utf8TokensStrict`. -/
def utf8TokensStrictAux : Nat → List (Sum Nat Char) → Option (List Char)
  | 0, _ => none
  | _ + 1, [] => some []
  | fuel + 1, Sum.inr c :: rest => (utf8TokensStrictAux fuel rest).map (fun l => c :: l)
  | fuel + 1, Sum.inl b :: rest =>
    if b < 0x80 then (utf8TokensStrictAux fuel rest).map (fun l => Char.ofNat b :: l)
    else if 0xc2 ≤ b && b ≤ 0xdf then
      match rest with
      | Sum.inl b2 :: rest2 =>
        if contByte b2 then
          (utf8TokensStrictAux fuel rest2).map (fun l =>
            Char.ofNat ((b - 0xc0) * 64 + (b2 - 0x80)) :: l)
        else none
      | _ => none
    else if 0xe0 ≤ b && b ≤ 0xef then
      match rest with
      | Sum.inl b2 :: Sum.inl b3 :: rest3 =>
        if cont2ok b b2 && contByte b3 then
          (utf8TokensStrictAux fuel rest3).map (fun l =>
            Char.ofNat ((b - 0xe0) * 4096 + (b2 - 0x80) * 64 + (b3 - 0x80)) :: l)
        else none
      | _ => none
    else if 0xf0 ≤ b && b ≤ 0xf4 then
      match rest with
      | Sum.inl b2 :: Sum.inl b3 :: Sum.inl b4 :: rest4 =>
        if cont3ok b b2 && contByte b3 && contByte b4 then
          (utf8TokensStrictAux fuel rest4).map (fun l =>
            Char.ofNat ((b - 0xf0) * 262144 + (b2 - 0x80) * 4096 + (b3 - 0x80) * 64 + (b4 - 0x80)) :: l)
        else none
      | _ => none
    else none

/-- Strict UTF-8 decoding of the byte tokens (ECMA-262's `Decode`): any
invalid, overlong, surrogate or truncated sequence is a `URIError` (`none`). -/
def utf8TokensStrict (ts : List (Sum Nat Char)) : Option (List Char) :=
  utf8TokensStrictAux (ts.length + 1) ts

/-- Source: `decodeUrlEncoding`: `try { return decodeURIComponent(text) } catch { return text }`. -/
def decodeUrlEncoding (t : List Char) : List Char :=
  match pctTokens t with
  | none => t
  | some ts =>
    match utf8TokensStrict ts with
    | some r => r
    | none => t

-- /\b(eval|exec|system|curl|wget|bash|sh|rm\s+-rf|chmod|nc\s+-)\b/i
def suspiciousCmdRe : RE :=
  reCat [.bWord,
    altList [cis ("eval"), cis ("exec"), cis ("system"), cis ("curl"), cis ("wget"),
      cis ("bash"), cis ("sh"), reCat [cis ("rm"), wsPlus, lit '-', cis ("rf")],
      cis ("chmod"), reCat [cis ("nc"), wsPlus, lit '-']],
    .bWord]

/-- Source: `findThreat` inside `detectObfuscatedEncoding`: the first catalog rule
matching the decoded text, else the suspicious-command lexicon. -/
def findThreat (decoded : List Char) : Option String :=
  match DECODED_SCAN_PATTERNS.findSome? (fun rule =>
      if reTest rule.re decoded then some rule.description else none) with
  | some d => some d
  | none =>
    if reTest suspiciousCmdRe decoded then some ("Decoded content contains suspicious command")
    else none

inductive ObfKind where
  | hex | unicode | html_entity | url_encoding
deriving DecidableEq

/-- Source: `ObfuscationResult` of `src/analysis/patterns.ts` (`type` named `kind`). -/
structure ObfuscationResult where
  kind : ObfKind
  encoded : String
  decoded : String
  threatFound : Option String
deriving DecidableEq

-- /(?:\\x[0-9a-fA-F]{2}){4,}/g
def hexScanPat : RE := repAtLeast 4 hexEsc
-- /(?:\\u[0-9a-fA-F]{4}){4,}/g
def uniScanPat : RE := repAtLeast 4 uniEsc
-- /(?:&#x?[0-9a-fA-F]+;){4,}/g
def htmlScanPat : RE := repAtLeast 4 htmlEnt
-- /(?:%[0-9a-fA-F]{2}){6,}/g
def urlScanPat : RE := repAtLeast 6 pctEsc

/-- Source: `detectObfuscatedEncoding` of `src/analysis/patterns.ts`: scan the four
escape families (hex, unicode, HTML entity, URL encoding, in the source's
order), decode every run, and record the threat found in the decoded text —
`none` when the decoded run is benign. -/
def detectObfuscatedEncoding (content : String) : List ObfuscationResult :=
  let t := content.data
  (reFindAll hexScanPat t).map (fun m =>
    let d := decodeHexEscapes m
    ⟨.hex, String.mk m, String.mk d, findThreat d⟩) ++
  (reFindAll uniScanPat t).map (fun m =>
    let d := decodeUnicodeEscapes m
    ⟨.unicode, String.mk m, String.mk d, findThreat d⟩) ++
  (reFindAll htmlScanPat t).map (fun m =>
    let d := decodeHtmlEntities m
    ⟨.html_entity, String.mk m, String.mk d, findThreat d⟩) ++
  (reFindAll urlScanPat t).map (fun m =>
    let d := decodeUrlEncoding m
    ⟨.url_encoding, String.mk m, String.mk d, findThreat d⟩)

/-- Source: `containsObfuscatedEncoding`:
`detectObfuscatedEncoding(content).some(r => r.threatFound !== null)`. -/
def containsObfuscatedEncoding (content : String) : Bool :=
  (detectObfuscatedEncoding content).any (fun r => r.threatFound.isSome)

/-! ## Rule engine and content analysis (`src/analysis/rules.ts`) -/

/-- Source: `RuleMatch` of `src/types/index.ts`. -/
structure RuleMatch where
  pattern : String
  category : InjectionCategory
  severity : Severity
  matchedText : String
  postId : String
deriving DecidableEq

/-- Source: `runRuleEngine`: for each catalog rule in order, one `content.match(...)`
search, pushing one `RuleMatch` (with the first matched substring) when it
fires. -/
def runRuleEngine (content : String) (postId : String) : List RuleMatch :=
  ALL_PATTERNS.foldl (fun acc rule =>
    match reFirstSub rule.re content.data with
    | some m => acc ++ [⟨rule.source, rule.category, rule.severity, String.mk m, postId⟩]
    | none => acc) []

/-- Source: `extractSuspiciousLinks`: all `URL_PATTERN` matches kept by
`isSuspiciousUrl`. -/
def extractSuspiciousLinks (content : String) : List String :=
  ((reFindAll URL_PATTERN content.data).map String.mk).filter isSuspiciousUrl

/-- Source: `ContentAnalysis` of `src/types/index.ts` (without the optional
`llmResult`, which `analyzeContent` never sets). -/
structure ContentAnalysis where
  postId : String
  ruleMatches : List RuleMatch
  promptInjection : Bool
  credentialTheft : Bool
  suspiciousLinks : List String
  maliciousUris : List String
  base64Hidden : Bool
  base64DecodedThreats : List String
  socialEngineering : Bool
  obfuscatedEncoding : Bool
deriving DecidableEq

def obfKindStr : ObfKind → String
  | .hex => ("hex")
  | .unicode => ("unicode")
  | .html_entity => ("html_entity")
  | .url_encoding => ("url_encoding")

/-- A malicious-URI finding pushed onto `ruleMatches` by `analyzeContent`. -/
def uriRuleMatch (postId : String) (u : MaliciousUriResult) : RuleMatch :=
  ⟨("malicious_uri"), .covert_execution, u.severity, u.uri, postId⟩

/-- An obfuscation finding with a confirmed threat pushed onto `ruleMatches`
(`if (obf.threatFound)`: the descriptions are never empty, so JavaScript
truthiness is `isSome`). -/
def obfRuleMatch (postId : String) (o : ObfuscationResult) : RuleMatch :=
  ⟨("obfuscated_") ++ obfKindStr o.kind, .obfuscated_encoding, .HIGH,
    o.encoded ++ (" → ") ++ o.decoded, postId⟩

/-- A deep-base64 finding pushed onto `ruleMatches`. -/
def b64RuleMatch (postId : String) (t : Base64DecodedThreat) : RuleMatch :=
  ⟨("base64_deep_scan"), .covert_execution, .HIGH,
    ("[depth=") ++ toString t.depth ++ ("] ") ++ String.mk (t.decodedText.data.take 60), postId⟩

/-- Source: `analyzeContent` of `src/analysis/rules.ts`: run all detectors, merge the
malicious-URI / obfuscation / deep-base64 findings into the rule matches, and
derive the category flags from the merged list. -/
def analyzeContent (content : String) (postId : String) : ContentAnalysis :=
  let ruleMatches0 := runRuleEngine content postId
  let suspiciousLinks := extractSuspiciousLinks content
  let base64Hidden := containsBase64Hidden content
  let maliciousUriResults := detectMaliciousUris content
  let maliciousUris := maliciousUriResults.map (fun r => r.uri)
  let base64Threats := deepBase64Scan content 3
  let base64DecodedThreats := base64Threats.map (fun t =>
    ("[depth=") ++ toString t.depth ++ ("] ") ++ t.matchedRule ++ (": ") ++
      String.mk (t.decodedText.data.take 80))
  let obfuscationResults := detectObfuscatedEncoding content
  let obfuscatedEncoding := obfuscationResults.any (fun r => r.threatFound.isSome)
  let ruleMatches := ruleMatches0 ++ maliciousUriResults.map (uriRuleMatch postId) ++
    (obfuscationResults.filter (fun o => o.threatFound.isSome)).map (obfRuleMatch postId) ++
    base64Threats.map (b64RuleMatch postId)
  { postId := postId
    ruleMatches := ruleMatches
    promptInjection := ruleMatches.any (fun m => m.category == .direct_injection)
    credentialTheft := ruleMatches.any (fun m => m.category == .credential_theft)
    suspiciousLinks := suspiciousLinks
    maliciousUris := maliciousUris
    base64Hidden := base64Hidden
    base64DecodedThreats := base64DecodedThreats
    socialEngineering := ruleMatches.any (fun m => m.category == .social_engineering)
    obfuscatedEncoding := obfuscatedEncoding }

/-! ## Risk / score aggregation (`ContentScanner` module, `calculateRisk` and
`calculateScore`) -/

/-- Source: `calculateRisk`: the most-severe-wins cascade over one `ContentAnalysis`. -/
def calculateRisk (analysis : ContentAnalysis) : RiskLevel :=
  let hasHigh := analysis.ruleMatches.any (fun m => m.severity == .HIGH)
  let hasMedium := analysis.ruleMatches.any (fun m => m.severity == .MEDIUM)
  if hasHigh || analysis.promptInjection || analysis.credentialTheft then .HIGH
  else if hasMedium || analysis.socialEngineering || analysis.base64Hidden ||
      analysis.obfuscatedEncoding then .MEDIUM
  else if !analysis.suspiciousLinks.isEmpty || !analysis.maliciousUris.isEmpty then .LOW
  else .SAFE

/-- Source: `calculateScore`: severity-weighted contributions, then `Math.min(score, 100)`. -/
def calculateScore (analysis : ContentAnalysis) : Int :=
  let s0 : Int := analysis.ruleMatches.foldl (fun score m =>
    if m.severity == .HIGH then score + 30
    else if m.severity == .MEDIUM then score + 15
    else score + 5) 0
  let s1 := s0 + (analysis.suspiciousLinks.length : Int) * 10
  let s2 := s1 + (analysis.maliciousUris.length : Int) * 20
  let s3 := if analysis.base64Hidden then s2 + 20 else s2
  let s4 := if !analysis.base64DecodedThreats.isEmpty then s3 + 25 else s3
  let s5 := if analysis.obfuscatedEncoding then s4 + 25 else s4
  min s5 100

/-! ## Claim-side definitions (stated from the specification's words, to be
compared against the source embedding above) -/

/-- The risk cascade of claim C1 in its amended form, computed directly from
the detector outputs of one content unit: HIGH on any HIGH-severity catalog
match, the promptInjection or credentialTheft flag, a HIGH-severity
malicious-URI finding, a deep-base64 threat or an obfuscation threat; else
MEDIUM on a MEDIUM catalog match, a MEDIUM (short-link) malicious-URI
finding, the socialEngineering flag or the base64-hidden flag; else LOW when
a suspicious link exists; else SAFE. -/
def claimedRiskCascade (content postId : String) : RiskLevel :=
  let base := runRuleEngine content postId
  let uris := detectMaliciousUris content
  if base.any (fun m => m.severity == .HIGH) ||
      base.any (fun m => m.category == .direct_injection) ||
      base.any (fun m => m.category == .credential_theft) ||
      uris.any (fun u => u.severity == .HIGH) ||
      !(deepBase64Scan content 3).isEmpty ||
      (detectObfuscatedEncoding content).any (fun o => o.threatFound.isSome) then .HIGH
  else if base.any (fun m => m.severity == .MEDIUM) ||
      uris.any (fun u => u.severity == .MEDIUM) ||
      base.any (fun m => m.category == .social_engineering) ||
      containsBase64Hidden content then .MEDIUM
  else if !(extractSuspiciousLinks content).isEmpty then .LOW
  else .SAFE

/-- Source: `is_suspicious_url` as claim C2 states it: fail-closed on parse failure,
and a parseable URL is safe exactly when its www-stripped host is an exact
allowlist member or a true suffix-with-dot of an allowlisted domain (a
subdomain such as `api.github.com`). -/
def isSuspiciousUrlClaimed (url : String) : Bool :=
  match urlHostname url with
  | none => true
  | some h =>
    let d := stripWww h
    !KNOWN_SAFE_DOMAINS.any (fun dom => d == dom || (('.' :: dom.data).isSuffixOf d.data))

/-- The score sum of claim C4 before clamping: +30 per HIGH match, +15 per
MEDIUM match, +5 per other match, +10 per suspicious link, +20 per malicious
URI, +20 flat for base64-hidden, +25 flat for deep-base64 threats, +25 flat
for an obfuscation threat. -/
def claimedScoreSum (a : ContentAnalysis) : Int :=
  30 * (a.ruleMatches.countP (fun m => m.severity == .HIGH) : Int) +
  15 * (a.ruleMatches.countP (fun m => m.severity == .MEDIUM) : Int) +
  5 * (a.ruleMatches.countP (fun m => m.severity != .HIGH && m.severity != .MEDIUM) : Int) +
  10 * (a.suspiciousLinks.length : Int) +
  20 * (a.maliciousUris.length : Int) +
  (if a.base64Hidden then 20 else 0) +
  (if !a.base64DecodedThreats.isEmpty then 25 else 0) +
  (if a.obfuscatedEncoding then 25 else 0)

/-! ## Concrete sample inputs used by witnesses and counterexamples -/

/-- Two base64 layers: the base64 encoding of
`aWdub3JlIGFsbCBwcmV2aW91cyBpbnN0cnVjdGlvbnM=`, which is itself the base64
encoding of the malicious phrase `ignore all previous instructions`. -/
def doubleBase64Sample : String :=
  "YVdkdWIzSmxJR0ZzYkNCd2NtVjJhVzkxY3lCcGJuTjBjblZqZEdsdmJuTT0="

/-- Twenty `/` characters: a base64 run decoding to fifteen `0xff` bytes,
0% printable. -/
def binaryBase64Sample : String := "////////////////////"

/-- The word `hello` in `\xHH` hex escapes (five repetitions, minimum four). -/
def hexHelloSample : String := "\\x68\\x65\\x6c\\x6c\\x6f"

/-- The word `hello` in `\uHHHH` unicode escapes (five repetitions). -/
def uniHelloSample : String := "\\u0068\\u0065\\u006c\\u006c\\u006f"

/-- The word `hello` in HTML hex entities (five repetitions). -/
def htmlHelloSample : String := "&#x68;&#x65;&#x6c;&#x6c;&#x6f;"

/-- The benign text `hello!` URL-encoded (six repetitions, minimum six). -/
def urlHelloSample : String := "%68%65%6c%6c%6f%21"

/-- A lone short-link: its only finding is one MEDIUM malicious-URI result. -/
def shortLinkSample : String := "https://bit.ly/abc"

/-- The word `hello` in hex escapes written with an uppercase `X` marker:
the ASCII case-folding of this string is `hexHelloSample`. -/
def hexUpperSample : String := "\\X68\\X65\\X6C\\X6C\\X6F"

/-- Stated from claim C6's words: the hex obfuscation pattern
`/\\x[0-9a-fA-F]{2}(\\x[0-9a-fA-F]{2}){3,}/` as it would read under
JavaScript's `i` flag — the claim calls every per-rule search
case-insensitive, which would make the literal `x` marker match `X` too.
The rule in the source carries no `i` flag. -/
def hexObfCaseInsensitive : RE :=
  .seq (reCat [lit '\\', ci 'x', hexD, hexD])
    (repAtLeast 3 (reCat [lit '\\', ci 'x', hexD, hexD]))

/-! ## Theorems -/

/-- Any layer produced for one candidate either carries the current depth or
comes from the recursive call at depth `d + 1`, guarded by `d < maxDepth`. -/
theorem candidateThreats_mem
    {recur : List Char → Nat → List Char → List Base64DecodedThreat}
    {m : Nat} {cand : List Char} {d : Nat} {orig : List Char} {t : Base64DecodedThreat}
    (h : t ∈ candidateThreats recur m cand d orig) :
    t.depth = d ∨ (d < m ∧ ∃ s o, t ∈ recur s (d + 1) o) := by
  unfold candidateThreats at h
  by_cases hg : printableGate (base64DecodeJs cand)
  · simp only [hg, Bool.not_true, Bool.false_eq_true, if_false, List.mem_append,
      List.mem_filterMap] at h
    rcases h with (⟨rule, _, hr⟩ | h) | h
    · split at hr
      · have ht := Option.some.inj hr
        exact Or.inl (by rw [← ht])
      · exact absurd hr (by simp)
    · split at h
      · rcases List.mem_singleton.mp h with rfl
        exact Or.inl rfl
      · exact absurd h (by simp)
    · split at h
      · rename_i hc
        simp only [Bool.and_eq_true, decide_eq_true_eq] at hc
        exact Or.inr ⟨hc.1, _, _, h⟩
      · exact absurd h (by simp)
  · rw [Bool.not_eq_true] at hg
    simp [hg] at h

/-- Every layer a scan starting at depth `d` returns has depth between `d`
and `maxDepth`. -/
theorem scanLayer_depth_mem :
    ∀ (fuel m : Nat) (text : List Char) (d : Nat) (orig : List Char)
      (t : Base64DecodedThreat), t ∈ scanLayer fuel m text d orig →
      d ≤ t.depth ∧ t.depth ≤ m := by
  intro fuel
  induction fuel with
  | zero =>
    intro m text d orig t h
    simp [scanLayer] at h
  | succ fuel ih =>
    intro m text d orig t h
    rw [scanLayer] at h
    split at h
    · simp at h
    · rename_i hdm
      rcases List.mem_flatMap.mp h with ⟨cand, _, hmem⟩
      rcases candidateThreats_mem hmem with heq | ⟨hlt, s, o, hrec⟩
      · omega
      · have := ih m s (d + 1) o t hrec
        omega

/-- C3: `deep_base64_scan` terminates on every input (it is a total Lean
function whose recursion mirrors the source's depth guard), every returned
layer has `1 ≤ depth ≤ maxDepth`, and the two-layer base64-of-base64
encoding of `ignore all previous instructions` is detected with a layer of
depth ≥ 2. -/
theorem claim3_depth_bounds :
    (∀ (content : String) (maxDepth : Nat),
      (deepBase64Scan content maxDepth).all
        (fun t => decide (1 ≤ t.depth) && decide (t.depth ≤ maxDepth)) = true) ∧
    (deepBase64Scan doubleBase64Sample 3).any (fun t => decide (2 ≤ t.depth)) = true := by
  constructor
  · intro content maxDepth
    rw [List.all_eq_true]
    intro t ht
    have := scanLayer_depth_mem (maxDepth + 1) maxDepth content.data 1 [] t ht
    simp only [Bool.and_eq_true, decide_eq_true_eq]
    omega
  · decide

/-- C5: inside `deep_base64_scan`, a base64 candidate whose decoded bytes
fall below the 70% printable-ASCII/whitespace plausibility ratio is
discarded (`continue`) and contributes no decoded layer, at any depth and
for any recursion continuation. -/
theorem claim5_plausibility_gate
    (recur : List Char → Nat → List Char → List Base64DecodedThreat)
    (maxDepth : Nat) (cand : List Char) (depth : Nat) (orig : List Char)
    (h : printableGate (base64DecodeJs cand) = false) :
    candidateThreats recur maxDepth cand depth orig = [] := by
  unfold candidateThreats
  simp [h]

/-- Witness for C5: twenty `/` characters decode to fifteen `0xff` bytes,
failing the gate, and the candidate contributes no layer. -/
theorem claim5_witness :
    printableGate (base64DecodeJs binaryBase64Sample.data) = false ∧
    candidateThreats (fun _ _ _ => []) 3 binaryBase64Sample.data 1 [] = [] :=
  ⟨by decide, claim5_plausibility_gate _ 3 _ 1 [] (by decide)⟩

/-- C8: `contains_base64_hidden` is extensionally the emptiness test of
`deep_base64_scan(text, 3)` — the boolean wrapper introduces no separate
detection algorithm. -/
theorem claim8_base64_wrapper (content : String) :
    containsBase64Hidden content = true ↔ deepBase64Scan content 3 ≠ [] := by
  unfold containsBase64Hidden
  rw [decide_eq_true_iff]
  exact List.length_pos

/-- Witness for C8 at a concrete input whose deep scan is non-empty. -/
theorem claim8_witness : containsBase64Hidden doubleBase64Sample = true :=
  (claim8_base64_wrapper doubleBase64Sample).mpr (by decide)

/-- C10: a string that fails URL parsing is simultaneously "not a short
link" (`is_short_url` fails open) and "suspicious" (`is_suspicious_url`
fails closed). -/
theorem claim10_parse_failure_defaults (url : String)
    (h : urlHostname url = none) :
    isShortUrl url = false ∧ isSuspiciousUrl url = true := by
  unfold isShortUrl isSuspiciousUrl
  rw [h]
  exact ⟨rfl, rfl⟩

/-- Witness for C10 at the unparsable input `not-a-url`. -/
theorem claim10_witness :
    isShortUrl ("not-a-url") = false ∧ isSuspiciousUrl ("not-a-url") = true :=
  claim10_parse_failure_defaults ("not-a-url") (by decide)

/-- C2 (amended): `is_suspicious_url` is fail-closed on parse failure, and a
parseable URL is safe exactly when its www-stripped hostname is an **exact**
member of the fixed allowlist — not when it is merely a subdomain
(true-suffix-with-dot) of an allowlisted domain. -/
theorem claim2_allowlist_exact (url : String) :
    (urlHostname url = none → isSuspiciousUrl url = true) ∧
    (∀ h, urlHostname url = some h →
      (isSuspiciousUrl url = false ↔ KNOWN_SAFE_DOMAINS.contains (stripWww h) = true)) := by
  constructor
  · intro h
    unfold isSuspiciousUrl
    rw [h]
  · intro h hh
    unfold isSuspiciousUrl
    rw [hh]
    simp

/-- Counterexample for C2 as stated: `api.github.com` is a true
suffix-with-dot subdomain of the allowlisted `github.com`, so the claim
says it is safe, but the code's exact-membership test flags it suspicious. -/
theorem claim2_counterexample :
    isSuspiciousUrlClaimed ("https://api.github.com/x") = false ∧
    isSuspiciousUrl ("https://api.github.com/x") = true := by
  decide

/-- Witness for C2 (amended): an exact allowlist member is safe and a host
merely containing an allowlisted name is suspicious. -/
theorem claim2_witness :
    isSuspiciousUrl ("https://github.com/org/repo") = false ∧
    isSuspiciousUrl ("https://github.com.evil.com/x") = true := by
  have h1 := (claim2_allowlist_exact ("https://github.com/org/repo")).2 ("github.com") (by decide)
  have h2 := (claim2_allowlist_exact ("https://github.com.evil.com/x")).2
    ("github.com.evil.com") (by decide)
  constructor
  · exact h1.mpr (by decide)
  · rcases Bool.eq_false_or_eq_true (isSuspiciousUrl ("https://github.com.evil.com/x")) with h | h
    · exact h
    · exact absurd (h2.mp h) (by decide)

theorem any_map_hetero {α β} (l : List α) (f : α → β) (p : β → Bool) :
    (l.map f).any p = l.any (fun a => p (f a)) := by
  induction l <;> simp [*]

theorem any_const_true {α} (l : List α) : l.any (fun _ => true) = !l.isEmpty := by
  cases l <;> simp

theorem any_const_false {α} (l : List α) : l.any (fun _ => false) = false := by
  simp

theorem any_filter {α} (l : List α) (p q : α → Bool) :
    (l.filter p).any q = l.any (fun a => p a && q a) := by
  induction l with
  | nil => simp
  | cons a rest ih => by_cases hp : p a <;> simp [hp, ih]

theorem isEmpty_map {α β} (l : List α) (f : α → β) : (l.map f).isEmpty = l.isEmpty := by
  cases l <;> simp

theorem isEmpty_filter {α} (l : List α) (p : α → Bool) :
    (l.filter p).isEmpty = !l.any p := by
  induction l with
  | nil => simp
  | cons a rest ih => by_cases hp : p a <;> simp [hp, ih]

theorem b64Hidden_eq (content : String) :
    containsBase64Hidden content = !(deepBase64Scan content 3).isEmpty := by
  unfold containsBase64Hidden
  cases h : deepBase64Scan content 3 <;> simp [h]

/-- Every malicious-URI finding carries severity HIGH or MEDIUM. -/
theorem detectMaliciousUris_sev (content : String) :
    ∀ r ∈ detectMaliciousUris content, r.severity = .HIGH ∨ r.severity = .MEDIUM := by
  intro r h
  unfold detectMaliciousUris at h
  dsimp only at h
  rcases List.mem_append.mp h with h' | hD
  · rcases List.mem_append.mp h' with h'' | hC
    · rcases List.mem_append.mp h'' with hA | hB
      · cases h1 : reFirstSub MALICIOUS_URI_PATTERN content.data with
        | none => rw [h1] at hA; simp at hA
        | some m =>
          rw [h1] at hA
          simp only [List.mem_singleton] at hA
          subst hA
          exact Or.inl rfl
      · cases h2 : reFirstSub DATA_URI_EXEC_PATTERN content.data with
        | none => rw [h2] at hB; simp at hB
        | some m =>
          rw [h2] at hB
          simp only [List.mem_singleton] at hB
          subst hB
          exact Or.inl rfl
    · rcases List.mem_map.mp hC with ⟨u, _, heq⟩
      rw [← heq]
      exact Or.inr rfl
  · rcases List.mem_map.mp hD with ⟨u, _, heq⟩
    rw [← heq]
    exact Or.inl rfl

theorem uris_nil_of_no_high_med {content : String}
    (h1 : (detectMaliciousUris content).any (fun u => u.severity == Severity.HIGH) = false)
    (h2 : (detectMaliciousUris content).any (fun u => u.severity == Severity.MEDIUM) = false) :
    detectMaliciousUris content = [] := by
  cases hu : detectMaliciousUris content with
  | nil => rfl
  | cons r rest =>
    exfalso
    have hr : r ∈ detectMaliciousUris content := by
      rw [hu]; exact List.mem_cons_self _ _
    rw [List.any_eq_false] at h1 h2
    rcases detectMaliciousUris_sev content r hr with hs | hs
    · have hf := h1 r hr
      rw [hs] at hf
      exact absurd hf (by decide)
    · have hf := h2 r hr
      rw [hs] at hf
      exact absurd hf (by decide)

theorem or_rearrange (a b c d e f : Bool) :
    ((a || d || f || e) || b || c) = (a || b || c || d || e || f) := by
  revert a b c d e f
  decide

theorem aC_ruleMatches (content pid : String) : (analyzeContent content pid).ruleMatches =
    runRuleEngine content pid ++ (detectMaliciousUris content).map (uriRuleMatch pid) ++
    ((detectObfuscatedEncoding content).filter (fun o => o.threatFound.isSome)).map
      (obfRuleMatch pid) ++
    (deepBase64Scan content 3).map (b64RuleMatch pid) := rfl

theorem aC_promptInjection (content pid : String) :
    (analyzeContent content pid).promptInjection =
    ((analyzeContent content pid).ruleMatches).any
      (fun m => m.category == .direct_injection) := rfl

theorem aC_credentialTheft (content pid : String) :
    (analyzeContent content pid).credentialTheft =
    ((analyzeContent content pid).ruleMatches).any
      (fun m => m.category == .credential_theft) := rfl

theorem aC_socialEngineering (content pid : String) :
    (analyzeContent content pid).socialEngineering =
    ((analyzeContent content pid).ruleMatches).any
      (fun m => m.category == .social_engineering) := rfl

theorem aC_suspiciousLinks (content pid : String) :
    (analyzeContent content pid).suspiciousLinks = extractSuspiciousLinks content := rfl

theorem aC_maliciousUris (content pid : String) :
    (analyzeContent content pid).maliciousUris =
    (detectMaliciousUris content).map (fun r => r.uri) := rfl

theorem aC_base64Hidden (content pid : String) :
    (analyzeContent content pid).base64Hidden = containsBase64Hidden content := rfl

theorem aC_obfuscatedEncoding (content pid : String) :
    (analyzeContent content pid).obfuscatedEncoding =
    (detectObfuscatedEncoding content).any (fun r => r.threatFound.isSome) := rfl

/-- C1 (amended): the pipeline risk of a content unit follows the
most-severe-wins cascade with a HIGH-severity malicious-URI finding (not any
malicious-URI finding) in the HIGH tier, and a MEDIUM (short-link)
malicious-URI finding in the MEDIUM tier. -/
theorem claim1_risk_cascade_amended (content pid : String) :
    calculateRisk (analyzeContent content pid) = claimedRiskCascade content pid := by
  unfold calculateRisk claimedRiskCascade
  dsimp only
  simp only [aC_promptInjection, aC_credentialTheft, aC_socialEngineering, aC_base64Hidden,
    aC_obfuscatedEncoding, aC_suspiciousLinks, aC_maliciousUris, aC_ruleMatches,
    b64Hidden_eq, isEmpty_map, List.any_append, any_map_hetero,
    uriRuleMatch, obfRuleMatch, b64RuleMatch, any_filter,
    (show (Severity.HIGH == Severity.HIGH) = true from rfl),
    (show (Severity.HIGH == Severity.MEDIUM) = false from rfl),
    (show (InjectionCategory.covert_execution == InjectionCategory.direct_injection) = false
      from rfl),
    (show (InjectionCategory.obfuscated_encoding == InjectionCategory.direct_injection) = false
      from rfl),
    (show (InjectionCategory.covert_execution == InjectionCategory.credential_theft) = false
      from rfl),
    (show (InjectionCategory.obfuscated_encoding == InjectionCategory.credential_theft) = false
      from rfl),
    (show (InjectionCategory.covert_execution == InjectionCategory.social_engineering) = false
      from rfl),
    (show (InjectionCategory.obfuscated_encoding == InjectionCategory.social_engineering) = false
      from rfl),
    Bool.and_true, Bool.and_false, any_const_true, any_const_false,
    isEmpty_filter, Bool.not_not, Bool.or_false, Bool.false_or]
  rw [or_rearrange]
  rcases Bool.eq_false_or_eq_true
    ((runRuleEngine content pid).any (fun m => m.severity == Severity.HIGH) ||
      (runRuleEngine content pid).any (fun m => m.category == InjectionCategory.direct_injection) ||
      (runRuleEngine content pid).any (fun m => m.category == InjectionCategory.credential_theft) ||
      (detectMaliciousUris content).any (fun u => u.severity == Severity.HIGH) ||
      !(deepBase64Scan content 3).isEmpty ||
      (detectObfuscatedEncoding content).any (fun r => r.threatFound.isSome)) with hc1 | hc1
  · simp only [hc1]
    rfl
  · simp only [hc1, Bool.false_eq_true, if_false]
    simp only [Bool.or_eq_false_iff] at hc1
    obtain ⟨⟨⟨⟨⟨hbH, hbD⟩, hbC⟩, huH⟩, hzE⟩, hoT⟩ := hc1
    simp only [hoT, Bool.or_false]
    rcases Bool.eq_false_or_eq_true
      (((runRuleEngine content pid).any (fun m => m.severity == Severity.MEDIUM) ||
        (detectMaliciousUris content).any (fun u => u.severity == Severity.MEDIUM) ||
        (runRuleEngine content pid).any
          (fun m => m.category == InjectionCategory.social_engineering)) ||
        !(deepBase64Scan content 3).isEmpty) with hc2 | hc2
    · simp only [hc2]
      rfl
    · simp only [hc2, Bool.false_eq_true, if_false]
      simp only [Bool.or_eq_false_iff] at hc2
      obtain ⟨⟨⟨hbM, huM⟩, hbS⟩, _⟩ := hc2
      have hunil : detectMaliciousUris content = [] := uris_nil_of_no_high_med huH huM
      simp only [hunil, List.isEmpty_nil, Bool.not_true, Bool.or_false]

/-- Counterexample for C1 as stated: a lone short-link produces a
malicious-URI finding (of MEDIUM severity), yet the computed risk is MEDIUM,
not the HIGH the claim requires for "any malicious-URI finding (of either
severity, including a MEDIUM short-link finding)". -/
theorem claim1_counterexample :
    detectMaliciousUris shortLinkSample =
      [⟨shortLinkSample, ("Short URL service used — destination hidden"), .MEDIUM⟩] ∧
    calculateRisk (analyzeContent shortLinkSample ("_sdk")) = RiskLevel.MEDIUM := by
  constructor
  · decide
  · decide

/-- The push-loop of `runRuleEngine` is the catalog-order `filterMap` of the
per-rule first matches. -/
theorem runRuleEngine_foldl (rules : List PatternRule) (content pid : String)
    (init : List RuleMatch) :
    rules.foldl (fun acc rule =>
      match reFirstSub rule.re content.data with
      | some m => acc ++ [⟨rule.source, rule.category, rule.severity, String.mk m, pid⟩]
      | none => acc) init =
    init ++ rules.filterMap (fun rule => (reFirstSub rule.re content.data).map
      (fun m => ⟨rule.source, rule.category, rule.severity, String.mk m, pid⟩)) := by
  induction rules generalizing init with
  | nil => simp
  | cons r rest ih =>
    simp only [List.foldl_cons, List.filterMap_cons]
    cases hm : reFirstSub r.re content.data <;> simp [hm, ih]

/-- The position search underlying `String.match`: a result is a genuine
match, and no strictly earlier position (from the scan start) matches. -/
theorem searchAux_leftmost (r : RE) (text : List Char) :
    ∀ (fuel i j len : Nat), searchAux r text fuel i = some (j, len) →
      tryAt r text j = some len ∧ i ≤ j ∧
        ∀ k, i ≤ k → k < j → tryAt r text k = none := by
  intro fuel
  induction fuel with
  | zero =>
    intro i j len h
    simp [searchAux] at h
  | succ fuel ih =>
    intro i j len h
    rw [searchAux] at h
    cases ht : tryAt r text i with
    | some l =>
      rw [ht] at h
      simp only [Option.some.injEq, Prod.mk.injEq] at h
      rcases h with ⟨rfl, rfl⟩
      exact ⟨ht, Nat.le_refl _, fun k hk1 hk2 => absurd hk1 (by omega)⟩
    | none =>
      rw [ht] at h
      rcases ih (i + 1) j len h with ⟨hj, hij, hnone⟩
      refine ⟨hj, by omega, fun k hk1 hk2 => ?_⟩
      rcases Nat.eq_or_lt_of_le hk1 with rfl | hk3
      · exact ht
      · exact hnone k (by omega) hk2

/-- Counterexample for C6 as stated: the hex obfuscation rule carries no `i`
flag, so its search is not case-insensitive — on hex escapes written with an
uppercase `X` the claimed case-insensitive search matches, yet the engine
emits no match at all, while the same text folded to lower case does fire
the rule. -/
theorem claim6_counterexample :
    reTest hexObfCaseInsensitive hexUpperSample.data = true ∧
    runRuleEngine hexUpperSample ("p") = [] ∧
    hexUpperSample.data.map lowerCh = hexHelloSample.data ∧
    runRuleEngine hexHelloSample ("p") ≠ [] := by
  refine ⟨by decide, by decide, by decide, by decide⟩

/-- C6 (amended): `match_all` performs one search per catalog rule in order
— case-insensitive exactly for the sixteen rules whose pattern carries the
`i` flag, case-sensitive for the four obfuscated-encoding patterns, as
transcribed in each rule's matcher — emitting exactly one `Match` per firing
rule (the catalog-order `filterMap`), whose `matchedText` is the first
matched substring — the search succeeds at its reported position and at no
earlier one — and text matching no rule yields the empty list. -/
theorem claim6_rule_engine (content pid : String) :
    runRuleEngine content pid =
      ALL_PATTERNS.filterMap (fun rule => (reFirstSub rule.re content.data).map
        (fun m => ⟨rule.source, rule.category, rule.severity, String.mk m, pid⟩)) ∧
    ((∀ rule ∈ ALL_PATTERNS, reFirstPos rule.re content.data = none) →
      runRuleEngine content pid = []) ∧
    (∀ (r : RE) (i len : Nat), reFirstPos r content.data = some (i, len) →
      tryAt r content.data i = some len ∧ ∀ j, j < i → tryAt r content.data j = none) := by
  have heq : runRuleEngine content pid =
      ALL_PATTERNS.filterMap (fun rule => (reFirstSub rule.re content.data).map
        (fun m => ⟨rule.source, rule.category, rule.severity, String.mk m, pid⟩)) := by
    unfold runRuleEngine
    rw [runRuleEngine_foldl]
    rfl
  refine ⟨heq, ?_, ?_⟩
  · intro hnone
    rw [heq]
    rw [List.filterMap_eq_nil_iff]
    intro rule hr
    unfold reFirstSub
    rw [hnone rule hr]
    rfl
  · intro r i len h
    rcases searchAux_leftmost r content.data (content.data.length + 1) 0 i len h with
      ⟨hj, _, hnone⟩
    exact ⟨hj, fun j hji => hnone j (Nat.zero_le j) hji⟩

/-- Witness for C6: text matching no rule yields the empty list. -/
theorem claim6_witness : runRuleEngine ("hello world") ("p") = [] :=
  (claim6_rule_engine ("hello world") ("p")).2.1 (by decide)

/-- The score fold of `calculateScore` counts 30/15/5 per HIGH/MEDIUM/other
match. -/
theorem score_foldl (l : List RuleMatch) (z : Int) :
    l.foldl (fun score m =>
      if m.severity == Severity.HIGH then score + 30
      else if m.severity == Severity.MEDIUM then score + 15
      else score + 5) z =
    z + 30 * (l.countP (fun m => m.severity == .HIGH) : Int) +
      15 * (l.countP (fun m => m.severity == .MEDIUM) : Int) +
      5 * (l.countP (fun m => m.severity != .HIGH && m.severity != .MEDIUM) : Int) := by
  induction l generalizing z with
  | nil => simp
  | cons m rest ih =>
    simp only [List.foldl_cons, List.countP_cons]
    rw [ih]
    cases hs : m.severity <;> simp [hs] <;> push_cast <;> ring

/-- C4: the numeric score is exactly the claimed severity-weighted sum
clamped from above at 100, and it always lies in the closed range [0, 100]
no matter how many findings are stacked. -/
theorem claim4_score_formula (a : ContentAnalysis) :
    calculateScore a = min (claimedScoreSum a) 100 ∧
    0 ≤ calculateScore a ∧ calculateScore a ≤ 100 := by
  have hsum : calculateScore a = min (claimedScoreSum a) 100 := by
    unfold calculateScore claimedScoreSum
    rw [score_foldl]
    by_cases hb : a.base64Hidden <;>
      by_cases hd : a.base64DecodedThreats.isEmpty <;>
      by_cases ho : a.obfuscatedEncoding <;>
      simp [hb, hd, ho] <;> congr 1 <;> ring
  have hpos : 0 ≤ claimedScoreSum a := by
    unfold claimedScoreSum
    by_cases hb : a.base64Hidden <;>
      by_cases hd : a.base64DecodedThreats.isEmpty <;>
      by_cases ho : a.obfuscatedEncoding <;>
      simp [hb, hd, ho] <;> positivity
  refine ⟨hsum, ?_, ?_⟩
  · rw [hsum]
    exact le_min hpos (by norm_num)
  · rw [hsum]
    exact min_le_right _ _

/-- C9: the analysis pipeline is total (`analyze` never throws — every
embedded function is a total Lean function), and a content unit on which
every detector comes up empty deterministically yields the SAFE analysis:
no matches, no findings, risk SAFE, score 0. -/
theorem claim9_safe_default (content pid : String)
    (h1 : runRuleEngine content pid = [])
    (h2 : extractSuspiciousLinks content = [])
    (h3 : detectMaliciousUris content = [])
    (h4 : deepBase64Scan content 3 = [])
    (h5 : detectObfuscatedEncoding content = []) :
    analyzeContent content pid = ⟨pid, [], false, false, [], [], false, [], false, false⟩ ∧
    calculateRisk (analyzeContent content pid) = .SAFE ∧
    calculateScore (analyzeContent content pid) = 0 := by
  have ha : analyzeContent content pid =
      ⟨pid, [], false, false, [], [], false, [], false, false⟩ := by
    unfold analyzeContent containsBase64Hidden
    rw [h1, h2, h3, h4, h5]
    rfl
  rw [ha]
  exact ⟨rfl, rfl, rfl⟩

/-- Witness for C9 at the empty string, on which every detector is empty. -/
theorem claim9_witness :
    analyzeContent ("") ("p") = ⟨("p"), [], false, false, [], [], false, [], false, false⟩ ∧
    calculateRisk (analyzeContent ("") ("p")) = .SAFE ∧
    calculateScore (analyzeContent ("") ("p")) = 0 :=
  claim9_safe_default ("") ("p") (by decide) (by decide) (by decide) (by decide) (by decide)

/-- C7: `contains_obfuscated_encoding` is true exactly when some returned
layer carries a non-null `threat_found`, and hex/unicode/HTML-entity/URL
encodings of a benign word at the minimum repetition count each yield one
layer with `threatFound = none` and an overall `false`. -/
theorem claim7_benign_obfuscation :
    (∀ content, containsObfuscatedEncoding content =
      (detectObfuscatedEncoding content).any (fun r => r.threatFound.isSome)) ∧
    detectObfuscatedEncoding hexHelloSample =
      [⟨.hex, hexHelloSample, ("hello"), none⟩] ∧
    containsObfuscatedEncoding hexHelloSample = false ∧
    detectObfuscatedEncoding uniHelloSample =
      [⟨.unicode, uniHelloSample, ("hello"), none⟩] ∧
    containsObfuscatedEncoding uniHelloSample = false ∧
    detectObfuscatedEncoding htmlHelloSample =
      [⟨.html_entity, htmlHelloSample, ("hello"), none⟩] ∧
    containsObfuscatedEncoding htmlHelloSample = false ∧
    detectObfuscatedEncoding urlHelloSample =
      [⟨.url_encoding, urlHelloSample, ("hello!"), none⟩] ∧
    containsObfuscatedEncoding urlHelloSample = false :=
  ⟨fun _ => rfl, by decide, by decide, by decide, by decide, by decide, by decide,
    by decide, by decide⟩

end Moltbot
